import Mathlib

/-!
# server-fx: shallow embedding and verification

A shallow embedding of the core of the `server-fx` readiness-polling server
framework, together with proofs about the embedded operations.

Modelling conventions:
* Rust `PollResult<T>` and `SinkResult<T>` become the inductives below.
* A call to `poll` on a stateful object becomes a pure function from the
  object's state to a `PollOutcome`, which also carries the successor state.
  `PollOutcome.panic` models a Rust panic (e.g. `"Poll called on finished
  result"`); `PollOutcome.diverge` models exhausting the fuel that bounds a
  source-level `loop`.
* Byte streams are modelled as scripts: a list of the results the successive
  non-blocking `read`/`write` calls return.  An `Except.error .wouldBlock`
  entry is the OS would-block condition.
* Machine bytes (`u8`) are modelled as `Nat`; the parser only ever compares
  them for equality against constants below 256.
-/

/-- Rust `PollResult<T>` from `src/result.rs`. -/
inductive PollResult (α : Type) : Type
  | notReady
  | ready (a : α)
deriving DecidableEq, Repr

/-- Rust `SinkResult<T>` from `src/sink.rs`: `NotReady` hands the rejected
item back to the caller. -/
inductive SinkResult (α : Type) : Type
  | ready
  | notReady (a : α)
deriving DecidableEq, Repr

/-- The outcome of one `poll` call on a stateful object whose state has type
`σ`: Rust `Result<PollResult<α>, ε>` together with the successor state, plus
the two non-returning outcomes (a panic, or a source-level `loop` running out
of the fuel we give it). -/
inductive PollOutcome (ε α σ : Type) : Type
  | ok (r : PollResult α) (s : σ)
  | err (e : ε)
  | panic
  | diverge
deriving DecidableEq, Repr

/-- The outcome of one `start_send` call: Rust
`Result<SinkResult<α>, ε>` with the successor sink state. -/
inductive SinkOutcome (ε α σ : Type) : Type
  | ok (r : SinkResult α) (s : σ)
  | err (e : ε)
deriving DecidableEq, Repr

/-- The `io::ErrorKind` values the core distinguishes. -/
inductive IoErrorKind : Type
  | wouldBlock
  | unexpectedEof
  | other (n : Nat)
deriving DecidableEq, Repr

/-! ## Framed transport (`src/framed.rs`)

`Framed<S, D>` owns a stream, a codec and a growable byte buffer.  The stream
is modelled by a script of read results (for the `Pollable` side) or write
results (for the `Sink` side); one script entry is consumed per `read`/`write`
call.  The decoder `decode(&mut Vec<u8>) -> Option<Item>` is modelled as a
pure function returning the optional item and the replacement buffer; the
encoder `encode(item, &mut Vec<u8>)` as a pure function from the item and the
buffer to the new buffer. -/

/-- One read result from the stream: `Ok(bytes)` (the bytes the 256-byte
stack buffer received) or an I/O error. -/
def ReadScript : Type := List (Except IoErrorKind (List Nat))

/-- `Framed::poll` (`src/framed.rs` lines 42-57): loop reading from the
stream; `try_poll_io!` turns a would-block error into `NotReady` and
propagates other errors; a zero-length read is `UnexpectedEof`; otherwise the
bytes are appended to the buffer and the decoder is consulted; if it yields,
`Ready(item)`, else read again.  An exhausted script is treated as a stream
that would block. -/
def framedPoll {α : Type} (decode : List Nat → Option α × List Nat) :
    ReadScript → List Nat → PollOutcome IoErrorKind α (ReadScript × List Nat)
  | [], buf => .ok .notReady ([], buf)
  | ev :: rest, buf =>
    match ev with
    | .error e => if e = .wouldBlock then .ok .notReady (rest, buf) else .err e
    | .ok bs =>
      match bs with
      | [] => .err .unexpectedEof
      | _ :: _ =>
        match decode (buf ++ bs) with
        | (some item, buf') => .ok (.ready item) (rest, buf')
        | (none, buf') => framedPoll decode rest buf'

/-- `Framed::start_send` (`src/framed.rs` lines 67-73): if the buffer is
non-empty, return `NotReady(item)` leaving the buffer alone; otherwise run the
encoder on the buffer and return `Ready`. -/
def framedStartSend {α : Type} (encode : α → List Nat → List Nat)
    (buf : List Nat) (item : α) : SinkOutcome IoErrorKind α (List Nat) :=
  if buf.length ≠ 0 then .ok (.notReady item) buf
  else .ok .ready (encode item buf)

/-- One write result from the stream: `Ok(n)` (the count of bytes the stream
accepted from the front of the buffer) or an I/O error. -/
def WriteScript : Type := List (Except IoErrorKind Nat)

/-- `Framed::poll_complete` (`src/framed.rs` lines 75-88): one non-blocking
write of the whole buffer; would-block becomes `NotReady`, other errors
propagate; a zero-length write returns `Ready(())`; otherwise the `n` written
bytes are drained from the front and the call returns `NotReady` if the buffer
became empty and `Ready(())` if bytes remain (exactly as the source is
written).  `Vec::drain(..n)` panics when `n` exceeds the buffer length. -/
def framedPollComplete :
    WriteScript → List Nat → PollOutcome IoErrorKind Unit (WriteScript × List Nat)
  | [], buf => .ok .notReady ([], buf)
  | ev :: rest, buf =>
    match ev with
    | .error e => if e = .wouldBlock then .ok .notReady (rest, buf) else .err e
    | .ok n =>
      if n = 0 then .ok (.ready ()) (rest, buf)
      else if n ≤ buf.length then
        if (buf.drop n).length = 0 then .ok .notReady (rest, buf.drop n)
        else .ok (.ready ()) (rest, buf.drop n)
      else .panic

/-! ## SendOne and the Connection state machine (`src/sink.rs`, `src/connection.rs`)

These are generic over the transport, the handler and the handler's response
pollable, which are supplied as pure step functions.  The type variables play
the roles of the Rust generics: `TS` is the state of the transport `S`
(implementing both `Pollable` and `Sink`), `HP` the state of the handler's
in-flight response pollable, `Req`/`Resp` the request/response items, `E` the
error type (the `From` conversions between the Rust error types are modelled
by using one common error type). -/

/-- `SendOne::poll` (`src/sink.rs` lines 44-64): while the held item is
present, try `start_send`; if the sink hands the item back, restore it and
consult `poll_complete`, returning `NotReady` if that is `NotReady` and
looping otherwise; once the item is consumed, return whatever `poll_complete`
returns.  The source-level `loop` is bounded by `fuel`. -/
def sendOnePoll {E Resp TS : Type}
    (startSend : TS → Resp → SinkOutcome E Resp TS)
    (pollComplete : TS → PollOutcome E Unit TS) :
    Nat → TS × Option Resp → PollOutcome E Unit (TS × Option Resp)
  | 0, _ => .diverge
  | fuel + 1, (ts, some v) =>
    match startSend ts v with
    | .ok .ready ts' => sendOnePoll startSend pollComplete fuel (ts', none)
    | .ok (.notReady v') ts' =>
      match pollComplete ts' with
      | .ok .notReady ts'' => .ok .notReady (ts'', some v')
      | .ok (.ready _) ts'' => sendOnePoll startSend pollComplete fuel (ts'', some v')
      | .err e => .err e
      | .panic => .panic
      | .diverge => .diverge
    | .err e => .err e
  | _ + 1, (ts, none) =>
    match pollComplete ts with
    | .ok r ts' => .ok r (ts', none)
    | .err e => .err e
    | .panic => .panic
    | .diverge => .diverge

/-- The `Connection<H, S>` state (`src/connection.rs` lines 8-16).  The
`Arc<H>` handler reference carried in every variant is a fixed parameter of
the step function, so it is not repeated in the state.  `writing` holds the
`SendOne<S, H::Response>` pair. -/
inductive Conn (Resp TS HP : Type) : Type
  | reading (ts : TS)
  | handling (ts : TS) (hp : HP)
  | writing (so : TS × Option Resp)
  | done
deriving DecidableEq, Repr

/-- `Connection::poll` (`src/connection.rs` lines 36-67).  `handle` is the
composition `H::handle` followed by `into_pollable()`.  In `Writing`, the
transport is extracted back out of the completed `SendOne`
(`SendOne::into_inner` is declared by the caller but absent from the sources;
modelled from the spec as returning the underlying sink).  Every arm ends by
storing the next state and returning `Ok(NotReady)`; polling `Done` panics. -/
def connectionPoll {E Req Resp TS HP : Type}
    (pollT : TS → PollOutcome E Req TS)
    (startSend : TS → Resp → SinkOutcome E Resp TS)
    (pollComplete : TS → PollOutcome E Unit TS)
    (handle : Req → HP)
    (pollH : HP → PollOutcome E Resp HP)
    (fuel : Nat) :
    Conn Resp TS HP → PollOutcome E Unit (Conn Resp TS HP)
  | .reading ts =>
    match pollT ts with
    | .ok .notReady ts' => .ok .notReady (.reading ts')
    | .ok (.ready req) ts' => .ok .notReady (.handling ts' (handle req))
    | .err e => .err e
    | .panic => .panic
    | .diverge => .diverge
  | .handling ts hp =>
    match pollH hp with
    | .ok .notReady hp' => .ok .notReady (.handling ts hp')
    | .ok (.ready resp) _ => .ok .notReady (.writing (ts, some resp))
    | .err e => .err e
    | .panic => .panic
    | .diverge => .diverge
  | .writing so =>
    match sendOnePoll startSend pollComplete fuel so with
    | .ok (.ready _) (ts', _) => .ok .notReady (.reading ts')
    | .ok .notReady so' => .ok .notReady (.writing so')
    | .err e => .err e
    | .panic => .panic
    | .diverge => .diverge
  | .done => .panic

/-! ## Join (`src/join.rs`) and AndThen (`src/and_then.rs`) -/

/-- `JoinState<L::Item, R::Item>` from `src/join.rs` lines 4-9 (the source
spells the first variant `Niether`). -/
inductive JoinState (α β : Type) : Type
  | niether
  | left (a : α)
  | right (b : β)
  | done
deriving DecidableEq, Repr

/-- `Join::poll` (`src/join.rs` lines 44-68).  The `Join` struct holds the
two pollables and the `JoinState`; its state is the triple.  In `Niether`
both sides are polled (left first; a left error propagates before the right
is polled, as in `(self.left.poll()?, self.right.poll()?)`); in `Left`/`Right`
only the pending side is polled.  A `Ready` pair returns immediately leaving
the state `Done`; polling `Done` panics. -/
def joinPoll {E A B SL SR : Type}
    (pollL : SL → PollOutcome E A SL) (pollR : SR → PollOutcome E B SR) :
    SL × SR × JoinState A B → PollOutcome E (A × B) (SL × SR × JoinState A B)
  | (sl, sr, .niether) =>
    match pollL sl with
    | .ok lres sl' =>
      match pollR sr with
      | .ok rres sr' =>
        match lres, rres with
        | .ready a, .ready b => .ok (.ready (a, b)) (sl', sr', .done)
        | .ready a, .notReady => .ok .notReady (sl', sr', .left a)
        | .notReady, .ready b => .ok .notReady (sl', sr', .right b)
        | .notReady, .notReady => .ok .notReady (sl', sr', .niether)
      | .err e => .err e
      | .panic => .panic
      | .diverge => .diverge
    | .err e => .err e
    | .panic => .panic
    | .diverge => .diverge
  | (sl, sr, .left a) =>
    match pollR sr with
    | .ok (.ready b) sr' => .ok (.ready (a, b)) (sl, sr', .done)
    | .ok .notReady sr' => .ok .notReady (sl, sr', .left a)
    | .err e => .err e
    | .panic => .panic
    | .diverge => .diverge
  | (sl, sr, .right b) =>
    match pollL sl with
    | .ok (.ready a) sl' => .ok (.ready (a, b)) (sl', sr, .done)
    | .ok .notReady sl' => .ok .notReady (sl', sr, .right b)
    | .err e => .err e
    | .panic => .panic
    | .diverge => .diverge
  | (_, _, .done) => .panic

/-- The join state reached after `i` outer polls, for a left pollable whose
trace of states is `sL` (completing with value `vL` on its `k1`-th poll) and a
right pollable with trace `sR` (completing with `vR` on its `k2`-th poll).
While both are pending the state is `Niether` and both traces advance; once
one side completes its trace freezes and the state carries its value. -/
def joinTrace {A B SL SR : Type} (sL : Nat → SL) (sR : Nat → SR)
    (k1 k2 : Nat) (vL : A) (vR : B) (i : Nat) : SL × SR × JoinState A B :=
  (sL (min i k1), sR (min i k2),
    if i < k1 ∧ i < k2 then .niether
    else if i < k2 then .left vL
    else if i < k1 then .right vR
    else .done)

/-- The `YieldAfter` test pollable from `src/join.rs` lines 77-92: counts
down, yielding `NotReady`, and returns `Ready(42)` once the counter is zero
(the counter is left at zero by the completing poll). -/
def yieldAfterPoll (n : Nat) : PollOutcome Unit Nat Nat :=
  if n = 0 then .ok (.ready 42) 0 else .ok .notReady (n - 1)

/-- `AndThen<L, F, R>` state (`src/and_then.rs` lines 6-10); `SL` and `SR`
are the states of the two pollables. -/
inductive AndThenState (SL SR : Type) : Type
  | first (sl : SL)
  | second (sr : SR)
  | done
deriving DecidableEq, Repr

/-- `AndThen::poll` (`src/and_then.rs` lines 30-56): in `First`, poll the
left pollable in place; `NotReady` stays in `First` with the advanced left
state; on `Ready(value)` the state is moved out, `f` is applied once to
produce the right pollable, which is polled once eagerly: immediately `Ready`
returns that value (state left at `Done`), otherwise the state becomes
`Second`; a left error leaves the state at `Done`.  In `Second`, forward the
right poll (the state is not replaced).  Polling `Done` panics. -/
def andThenPoll {E A B SL SR : Type}
    (pollL : SL → PollOutcome E A SL) (f : A → SR)
    (pollR : SR → PollOutcome E B SR) :
    AndThenState SL SR → PollOutcome E B (AndThenState SL SR)
  | .first sl =>
    match pollL sl with
    | .ok .notReady sl' => .ok .notReady (.first sl')
    | .ok (.ready value) _ =>
      match pollR (f value) with
      | .ok (.ready b) _ => .ok (.ready b) .done
      | .ok .notReady sr' => .ok .notReady (.second sr')
      | .err e => .err e
      | .panic => .panic
      | .diverge => .diverge
    | .err e => .err e
    | .panic => .panic
    | .diverge => .diverge
  | .second sr =>
    match pollR sr with
    | .ok r sr' => .ok r (.second sr')
    | .err e => .err e
    | .panic => .panic
    | .diverge => .diverge
  | .done => .panic

/-- Modelled from the spec: `IntoPollable` on `Result<T, E>`
(`PollableResult`) is used throughout the sources (`use pollable::{IntoPollable,
..}`) but its definition is not present under src.  Spec section 4.1: it
"lifts any `Result<T,E>` into a single-shot Pollable (Ok → Ready once then
panic; Err → Err once then panic)".  The state is the not-yet-consumed
result. -/
def pollableResultPoll {E A : Type} :
    Option (Except E A) → PollOutcome E A (Option (Except E A))
  | some (.ok a) => .ok (.ready a) none
  | some (.error e) => .err e
  | none => .panic

/-! ## HTTP method recognition (`src/http/types.rs`) -/

/-- `HttpMethod` from `src/http/types.rs` lines 295-306. -/
inductive HttpMethod : Type
  | connect
  | get
  | post
  | put
  | delete
  | patch
  | head
  | options
  | unsupported
deriving DecidableEq, Repr

/-- ASCII bytes of a string literal. -/
def strBytes (s : String) : List Nat := s.toList.map Char.toNat

/-- `to_lower` (`src/http/types.rs` lines 308-313): fold an ASCII uppercase
letter to lowercase, leave every other byte alone. -/
def toLower (v : Nat) : Nat := if 65 ≤ v ∧ v ≤ 90 then v + 32 else v

/-- The enumeration loop inside `which_of` (`src/http/types.rs` lines
315-326), carrying the running index: the first set element equal to the
needle after folding both through `to_lower` wins. -/
def whichOfAux (toFind : List Nat) : Nat → List (List Nat) → Option Nat
  | _, [] => none
  | i, el :: rest =>
    if el.map toLower = toFind.map toLower then some i
    else whichOfAux toFind (i + 1) rest

/-- `which_of` (`src/http/types.rs` lines 315-326). -/
def whichOf (toFind : List Nat) (inSet : List (List Nat)) : Option Nat :=
  whichOfAux toFind 0 inSet

/-- The `valid` method set from `impl From<&[u8]> for HttpMethod`
(`src/http/types.rs` lines 330-339), with the source's mixed casing. -/
def validMethods : List (List Nat) :=
  [strBytes "connect", strBytes "Get", strBytes "Post", strBytes "Put",
   strBytes "Delete", strBytes "Patch", strBytes "Head", strBytes "options"]

/-- `impl From<&[u8]> for HttpMethod` (`src/http/types.rs` lines 328-360).
`none` models the panic `"Unsupported HTTP method"` taken both when
`which_of` finds nothing and in the unreachable index arm; the
`HttpMethod::Unsupported` return is commented out in the source. -/
def httpMethodFromBytes (bytes : List Nat) : Option HttpMethod :=
  match whichOf bytes validMethods with
  | some 0 => some .connect
  | some 1 => some .get
  | some 2 => some .post
  | some 3 => some .put
  | some 4 => some .delete
  | some 5 => some .patch
  | some 6 => some .head
  | some 7 => some .options
  | some _ => none
  | none => none

/-! ## HTTP request parser (`src/http/parser.rs`)

The parser works on borrowed byte slices; slices become `List Nat` and the
pointer arithmetic that recovers consumed byte counts becomes length
arithmetic on the original data. -/

/-- `Iterator::position`. -/
def position (p : Nat → Bool) (data : List Nat) : Option Nat :=
  data.findIdx? p

/-- `header_line_is_empty` (`src/http/parser.rs` lines 3-6). -/
def headerLineIsEmpty (data : List Nat) : Bool :=
  match data with
  | 10 :: _ => true
  | 13 :: 10 :: _ => true
  | _ => false

/-- `skip_newline` (`src/http/parser.rs` lines 8-22): the skip count starts
at zero, is set past the first `\r` if one occurs anywhere, then overridden
to past the first `\n` if one occurs anywhere. -/
def skipNewline (data : List Nat) : List Nat :=
  let afterCr : Nat :=
    match position (fun b => b = 13) data with
    | some p => p + 1
    | none => 0
  let toSkip : Nat :=
    match position (fun b => b = 10) data with
    | some p => p + 1
    | none => afterCr
  data.drop toSkip

/-- `skip_whitespace` (`src/http/parser.rs` lines 24-35): drop up to the
first byte that is neither space nor tab; all-whitespace data becomes the
empty slice. -/
def skipWhitespace (data : List Nat) : List Nat :=
  match position (fun b => !(b = 32) && !(b = 9)) data with
  | some p => data.drop p
  | none => []

/-- `skip_header_separator` (`src/http/parser.rs` lines 37-48): drop up to
the first byte that is not `:`, space or tab. -/
def skipHeaderSeparator (data : List Nat) : List Nat :=
  match position (fun b => !(b = 9) && !(b = 32) && !(b = 58)) data with
  | some p => data.drop p
  | none => []

/-- `split_at_first_newline` (`src/http/parser.rs` lines 50-54). -/
def splitAtFirstNewline (data : List Nat) : Option (List Nat × List Nat) :=
  (position (fun b => b = 13 || b = 10) data).map
    fun p => (data.take p, data.drop p)

/-- `split_at_first_whitespace` (`src/http/parser.rs` lines 56-60). -/
def splitAtFirstWhitespace (data : List Nat) : Option (List Nat × List Nat) :=
  (position (fun b => b = 32 || b = 9) data).map
    fun p => (data.take p, data.drop p)

/-- `split_at_first_header_separator` (`src/http/parser.rs` lines 62-66). -/
def splitAtFirstHeaderSeparator (data : List Nat) : Option (List Nat × List Nat) :=
  (position (fun b => b = 58) data).map
    fun p => (data.take p, data.drop p)

/-- `ProtocolParser::parse` (`src/http/parser.rs` lines 150-182), with the
`Method → Path → Version` state loop unrolled into its three sequential
steps: split the method at whitespace, skip whitespace, split the path, skip
whitespace, split the version at the newline and skip it.  A missing
delimiter at any state returns `none`. -/
def protocolParse (data : List Nat) :
    Option (List Nat × List Nat × List Nat × List Nat) :=
  match splitAtFirstWhitespace data with
  | none => none
  | some (method, t1) =>
    match splitAtFirstWhitespace (skipWhitespace t1) with
    | none => none
    | some (path, t2) =>
      match splitAtFirstNewline (skipWhitespace t2) with
      | none => none
      | some (version, t3) => some (method, path, version, skipNewline t3)

/-- `HeaderParser::parse` (`src/http/parser.rs` lines 228-259): an empty
line yields the sentinel empty header and the data after the newline;
otherwise split the name at `:`, skip the separator run, split the value at
the newline and skip it. -/
def headerParse (data : List Nat) :
    Option ((List Nat × List Nat) × List Nat) :=
  if headerLineIsEmpty data then some (([], []), skipNewline data)
  else
    match splitAtFirstHeaderSeparator data with
    | none => none
    | some (name, t1) =>
      match splitAtFirstNewline (skipHeaderSeparator t1) with
      | none => none
      | some (value, t2) => some ((name, value), skipNewline t2)

/-- Outcome of `Object::read_headers`: `ok` with the collected headers and
the consumed byte count, `incomplete` when a header line fails to parse
(`None` in the source), `panicked` for the `"Not enough space for headers!"`
panic, `outOfFuel` when the bound on the source's `while let` loop runs
out. -/
inductive ReadHeadersResult : Type
  | ok (headers : List (List Nat × List Nat)) (consumed : Nat)
  | incomplete
  | panicked
  | outOfFuel
deriving DecidableEq, Repr

/-- `Object::read_headers` (`src/http/parser.rs` lines 287-322).  `cap` is
the caller's header-array capacity, `dataLen` the length of the full request
data (so `dataLen - tail.length` is the source's pointer-difference
`bytes_parsed`).  The sentinel empty header ends the loop, returning the
headers seen so far and the bytes consumed up to just after the empty
line. -/
def readHeaders (cap dataLen : Nat) :
    Nat → List (List Nat × List Nat) → List Nat → ReadHeadersResult
  | 0, _, _ => .outOfFuel
  | fuel + 1, acc, hdata =>
    match headerParse hdata with
    | none => .incomplete
    | some ((name, value), tail) =>
      if name.length = 0 then .ok acc (dataLen - tail.length)
      else if cap ≤ acc.length then .panicked
      else readHeaders cap dataLen fuel (acc ++ [(name, value)]) tail

/-- The fields `Request::parse` (`src/http/parser.rs` lines 411-426) leaves
in a `parser::Request`, plus the consumed byte count it returns. -/
structure ParsedRequest : Type where
  method : List Nat
  path : List Nat
  version : List Nat
  headers : List (List Nat × List Nat)
  consumed : Nat
deriving DecidableEq, Repr

/-- Outcome of `Request::parse`.  `incomplete` is the source's `None`. -/
inductive RequestParseResult : Type
  | ok (r : ParsedRequest)
  | incomplete
  | panicked
  | outOfFuel
deriving DecidableEq, Repr

/-- `Request::parse` (`src/http/parser.rs` lines 411-426) composed with
`Object::parse` (lines 324-335): run the protocol-line parser, record
method/path/version, then read headers from the remaining data. -/
def requestParse (cap fuel : Nat) (data : List Nat) : RequestParseResult :=
  match protocolParse data with
  | none => .incomplete
  | some (method, path, version, tail) =>
    match readHeaders cap data.length fuel [] tail with
    | .ok hs consumed => .ok ⟨method, path, version, hs, consumed⟩
    | .incomplete => .incomplete
    | .panicked => .panicked
    | .outOfFuel => .outOfFuel

/-! ## Thread-pool dispatch (`src/thread_pool.rs`) -/

/-- One `ThreadPool::queue` call (`src/thread_pool.rs` lines 53-58) for a
pool of `n` workers: the stream goes to worker `last_thread`, then
`last_thread` advances to `(last_thread + 1) % n`.  Returns the worker index
chosen together with the new `last_thread`. -/
def queueStep (n last : Nat) : Nat × Nat := (last, (last + 1) % n)

/-- The workers chosen by `m` consecutive `queue` calls starting from
`last_thread = last`. -/
def queueRun (n : Nat) : Nat → Nat → List Nat
  | _, 0 => []
  | last, m + 1 =>
    (queueStep n last).1 :: queueRun n (queueStep n last).2 m

/-! ## Specification-side definitions and concrete instances used by the
theorems -/

/-- The request bytes of the first concrete HTTP-parser scenario. -/
def c6Input : List Nat :=
  strBytes "GET /index.html HTTP/1.1\r\nHost: www.someserver.com\r\n\r\nHello, World!"

/-- The spec's description of method recognition, as a function of the
already-lowercased input: compare against the eight lowercase method words in
the source's order and map each to its variant; anything else is no method.
(Transcribed from the spec's words, to be compared with
`httpMethodFromBytes`.) -/
def methodOfLowered (l : List Nat) : Option HttpMethod :=
  if strBytes "connect" = l then some .connect
  else if strBytes "get" = l then some .get
  else if strBytes "post" = l then some .post
  else if strBytes "put" = l then some .put
  else if strBytes "delete" = l then some .delete
  else if strBytes "patch" = l then some .patch
  else if strBytes "head" = l then some .head
  else if strBytes "options" = l then some .options
  else none

/-- A transport that always has the next request ready: request `n` on the
`n`-th read, the state counting requests delivered. -/
def demoPollT (n : Nat) : PollOutcome Unit Nat Nat := .ok (.ready n) (n + 1)

/-- A sink that always accepts the item. -/
def demoStartSend (ts : Nat) (_ : Nat) : SinkOutcome Unit Nat Nat := .ok .ready ts

/-- A sink whose flush always completes. -/
def demoPollComplete (ts : Nat) : PollOutcome Unit Unit Nat := .ok (.ready ()) ts

/-- A handler mapping request `n` to response `n + 100` (composed with
`into_pollable`, so the result is the response pollable's state). -/
def demoHandle (req : Nat) : Nat := req + 100

/-- The handler's response pollable: immediately ready with the response. -/
def demoPollH (hp : Nat) : PollOutcome Unit Nat Nat := .ok (.ready hp) hp

/-- `Connection::poll` instantiated with the demo transport, sink and
handler. -/
def demoConnPoll : Conn Nat Nat Nat → PollOutcome Unit Unit (Conn Nat Nat Nat) :=
  connectionPoll demoPollT demoStartSend demoPollComplete demoHandle demoPollH 4

/-! ## Theorems -/

/-- C1: evaluating `Framed::poll_complete` at the failing inputs.  A write
that drains the whole 3-byte buffer returns `NotReady` (the claim and the
spec's sink contract require `Ready(())` once the buffer is empty), and a
partial write that leaves one byte in the buffer returns `Ready(())` (the
claim requires `NotReady`): the source's two branches are swapped. -/
theorem framedPollComplete_inverted :
    framedPollComplete [Except.ok 3] [1, 2, 3] =
      .ok .notReady ([], []) ∧
    framedPollComplete [Except.ok 2] [1, 2, 3] =
      .ok (.ready ()) ([], [3]) := by
  constructor <;> rfl

/-- C4: the read loop of `Framed::poll`.  A would-block read yields
`NotReady` with the buffer untouched; any other read error propagates; a
zero-length read is `UnexpectedEof`; a successful read appends the bytes to
the buffer and consults the decoder, returning `Ready` with the decoder's
item when it yields and repeating the read otherwise. -/
theorem framedPoll_read_loop {α : Type}
    (decode : List Nat → Option α × List Nat) (rest : ReadScript)
    (buf bs rem : List Nat) (e : IoErrorKind) (v : α) :
    (framedPoll decode (.error .wouldBlock :: rest) buf =
      .ok .notReady (rest, buf)) ∧
    (e ≠ .wouldBlock → framedPoll decode (.error e :: rest) buf = .err e) ∧
    (framedPoll decode (.ok [] :: rest) buf = .err .unexpectedEof) ∧
    (bs ≠ [] → decode (buf ++ bs) = (some v, rem) →
      framedPoll decode (.ok bs :: rest) buf = .ok (.ready v) (rest, rem)) ∧
    (bs ≠ [] → decode (buf ++ bs) = (none, rem) →
      framedPoll decode (.ok bs :: rest) buf = framedPoll decode rest rem) := by
  refine ⟨by simp [framedPoll], fun he => by simp [framedPoll, he], by simp [framedPoll],
    fun hbs hdec => ?_, fun hbs hdec => ?_⟩
  · cases bs with
    | nil => exact absurd rfl hbs
    | cons b tl => simp [framedPoll, hdec]
  · cases bs with
    | nil => exact absurd rfl hbs
    | cons b tl => simp [framedPoll, hdec]

/-- C4 witness: the branch facts evaluated at concrete inputs. -/
theorem framedPoll_read_loop_witness :
    framedPoll (fun b => (some b.length, [])) [Except.ok [7]] [] =
      .ok (.ready 1) ([], []) :=
  (framedPoll_read_loop (fun b => (some b.length, [])) [] [] [7] []
      .unexpectedEof 1).2.2.2.1 (by simp) (by rfl)

/-- C5: `Framed::start_send` accepts only into an empty buffer: a non-empty
buffer hands the very item back as `NotReady` and is left unchanged; an empty
buffer receives the encoder's bytes for the item and the call returns
`Ready`. -/
theorem framedStartSend_policy {α : Type} (encode : α → List Nat → List Nat)
    (buf : List Nat) (item : α) :
    (buf ≠ [] → framedStartSend encode buf item = .ok (.notReady item) buf) ∧
    (buf = [] → framedStartSend encode buf item = .ok .ready (encode item [])) := by
  constructor
  · intro h
    simp [framedStartSend, List.length_eq_zero, h]
  · intro h
    subst h
    simp [framedStartSend]

/-- C5 witness: both branches at concrete inputs. -/
theorem framedStartSend_policy_witness :
    framedStartSend (fun (it : Nat) b => b ++ [it]) [9] 5 =
      .ok (.notReady 5) [9] ∧
    framedStartSend (fun (it : Nat) b => b ++ [it]) [] 5 =
      .ok .ready [5] :=
  ⟨(framedStartSend_policy (fun it b => b ++ [it]) [9] 5).1 (by simp),
   (framedStartSend_policy (fun it b => b ++ [it]) [] 5).2 rfl⟩

/-- C6: parsing the concrete request yields method bytes `GET` (recognised
as the `Get` method), path `/index.html`, version `HTTP/1.1`, exactly the one
header `Host: www.someserver.com`, and a consumed-prefix length of 54 bytes,
leaving exactly `Hello, World!` in the buffer. -/
theorem requestParse_concrete :
    requestParse 32 40 c6Input =
      .ok ⟨strBytes "GET", strBytes "/index.html", strBytes "HTTP/1.1",
           [(strBytes "Host", strBytes "www.someserver.com")], 54⟩ ∧
    c6Input.drop 54 = strBytes "Hello, World!" ∧
    httpMethodFromBytes (strBytes "GET") = some HttpMethod.get := by
  refine ⟨by decide, by decide, by decide⟩

/-- Helper: `From<&[u8]> for HttpMethod` agrees with the spec-side
case-folded lookup table on every input. -/
theorem httpMethodFromBytes_eq_spec (bs : List Nat) :
    httpMethodFromBytes bs = methodOfLowered (bs.map toLower) := by
  have e1 : (strBytes "connect").map toLower = strBytes "connect" := by decide
  have e2 : (strBytes "Get").map toLower = strBytes "get" := by decide
  have e3 : (strBytes "Post").map toLower = strBytes "post" := by decide
  have e4 : (strBytes "Put").map toLower = strBytes "put" := by decide
  have e5 : (strBytes "Delete").map toLower = strBytes "delete" := by decide
  have e6 : (strBytes "Patch").map toLower = strBytes "patch" := by decide
  have e7 : (strBytes "Head").map toLower = strBytes "head" := by decide
  have e8 : (strBytes "options").map toLower = strBytes "options" := by decide
  unfold httpMethodFromBytes whichOf validMethods methodOfLowered
  simp only [whichOfAux, e1, e2, e3, e4, e5, e6, e7, e8]
  split_ifs <;> rfl

/-- C7 counterexample: on the unknown method `BREW` the conversion does not
return `Unsupported` — it takes the panic path (`none` in the model); the
`HttpMethod::Unsupported` return is commented out in the source. -/
theorem httpMethod_unknown_panics :
    httpMethodFromBytes (strBytes "BREW") = none ∧
    httpMethodFromBytes (strBytes "BREW") ≠ some HttpMethod.unsupported := by
  exact ⟨by decide, by decide⟩

/-- C7 (amended): the conversion folds uppercase letters to lowercase and
compares against the eight known methods, mapping each match to its variant
(`methodOfLowered` transcribes the spec's table); a byte string matching none
of the eight makes the conversion panic — it never returns `Unsupported`. -/
theorem httpMethod_recognition (bs : List Nat) :
    httpMethodFromBytes bs = methodOfLowered (bs.map toLower) ∧
    httpMethodFromBytes bs ≠ some HttpMethod.unsupported := by
  have h := httpMethodFromBytes_eq_spec bs
  refine ⟨h, ?_⟩
  rw [h]
  unfold methodOfLowered
  split_ifs <;> simp

/-- C8: when the first pollable of `AndThen` yields `Ready(x)`, `f x`
produces the second pollable and it is polled once within the same call: an
immediately `Ready(y)` second pollable makes the call return `Ready(y)`,
otherwise the state becomes `Second`.  Instantiated with lifted eager
results, `AndThen(Ok(5).lift, fun n => Ok(n+1).lift)` completes on its first
poll (hence in at most 2 polls) returning 6. -/
theorem andThen_eager {E A B SL SR : Type}
    (pollL : SL → PollOutcome E A SL) (f : A → SR)
    (pollR : SR → PollOutcome E B SR)
    (sl sl' : SL) (x : A) (sr' : SR) (y : B) :
    (pollL sl = .ok (.ready x) sl' → pollR (f x) = .ok (.ready y) sr' →
      andThenPoll pollL f pollR (.first sl) = .ok (.ready y) .done) ∧
    (pollL sl = .ok (.ready x) sl' → pollR (f x) = .ok .notReady sr' →
      andThenPoll pollL f pollR (.first sl) = .ok .notReady (.second sr')) ∧
    (andThenPoll pollableResultPoll
        (fun (n : Nat) => (some (.ok (n + 1)) : Option (Except Unit Nat)))
        pollableResultPoll (.first (some (.ok 5))) = .ok (.ready 6) .done) := by
  refine ⟨fun h1 h2 => ?_, fun h1 h2 => ?_, rfl⟩
  · simp [andThenPoll, h1, h2]
  · simp [andThenPoll, h1, h2]

/-- C8 witness: the eager-composition conjuncts applied to the lifted
`Ok(5)` and `fun n => Ok(n+1).lift`. -/
theorem andThen_eager_witness :
    andThenPoll pollableResultPoll
      (fun (n : Nat) => (some (.ok (n + 1)) : Option (Except Unit Nat)))
      pollableResultPoll (.first (some (.ok 5))) = .ok (.ready 6) .done :=
  (andThen_eager pollableResultPoll
      (fun (n : Nat) => (some (.ok (n + 1)) : Option (Except Unit Nat)))
      pollableResultPoll (some (.ok 5)) none 5 none 6).1 rfl rfl

/-- C2: the connection cycle.  In `Reading`, a ready request moves to
`Handling` with the handler invoked on it, and `NotReady` stays `Reading`;
in `Handling`, a ready response moves to `Writing` carrying
`send_one(response)`, and `NotReady` stays; in `Writing`, a completed send
hands the transport back and re-enters `Reading`, and `NotReady` stays.  On
the demo instance, two consecutive ready requests traverse
`Reading → Handling → Writing → Reading → Handling → Writing → Reading`
without error, every poll returning `NotReady`. -/
theorem connection_cycle {E Req Resp TS HP : Type}
    (pollT : TS → PollOutcome E Req TS)
    (startSend : TS → Resp → SinkOutcome E Resp TS)
    (pollComplete : TS → PollOutcome E Unit TS)
    (handle : Req → HP) (pollH : HP → PollOutcome E Resp HP) (fuel : Nat)
    (ts ts' : TS) (hp hp' : HP) (req : Req) (resp : Resp)
    (so so' : TS × Option Resp) (rem : Option Resp) :
    (pollT ts = .ok (.ready req) ts' →
      connectionPoll pollT startSend pollComplete handle pollH fuel (.reading ts) =
        .ok .notReady (.handling ts' (handle req))) ∧
    (pollT ts = .ok .notReady ts' →
      connectionPoll pollT startSend pollComplete handle pollH fuel (.reading ts) =
        .ok .notReady (.reading ts')) ∧
    (pollH hp = .ok (.ready resp) hp' →
      connectionPoll pollT startSend pollComplete handle pollH fuel (.handling ts hp) =
        .ok .notReady (.writing (ts, some resp))) ∧
    (pollH hp = .ok .notReady hp' →
      connectionPoll pollT startSend pollComplete handle pollH fuel (.handling ts hp) =
        .ok .notReady (.handling ts hp')) ∧
    (sendOnePoll startSend pollComplete fuel so = .ok (.ready ()) (ts', rem) →
      connectionPoll pollT startSend pollComplete handle pollH fuel (.writing so) =
        .ok .notReady (.reading ts')) ∧
    (sendOnePoll startSend pollComplete fuel so = .ok .notReady so' →
      connectionPoll pollT startSend pollComplete handle pollH fuel (.writing so) =
        .ok .notReady (.writing so')) ∧
    (demoConnPoll (.reading 0) = .ok .notReady (.handling 1 100) ∧
     demoConnPoll (.handling 1 100) = .ok .notReady (.writing (1, some 100)) ∧
     demoConnPoll (.writing (1, some 100)) = .ok .notReady (.reading 1) ∧
     demoConnPoll (.reading 1) = .ok .notReady (.handling 2 101) ∧
     demoConnPoll (.handling 2 101) = .ok .notReady (.writing (2, some 101)) ∧
     demoConnPoll (.writing (2, some 101)) = .ok .notReady (.reading 2)) := by
  refine ⟨fun h => ?_, fun h => ?_, fun h => ?_, fun h => ?_, fun h => ?_,
    fun h => ?_, ⟨rfl, rfl, rfl, rfl, rfl, rfl⟩⟩ <;>
    simp [connectionPoll, h]

/-- C2 witness: the `Reading → Handling` transition applied on the demo
transport, whose first poll yields request 0. -/
theorem connection_cycle_witness :
    connectionPoll demoPollT demoStartSend demoPollComplete demoHandle demoPollH 4
      (.reading 0) = .ok .notReady (.handling 1 (demoHandle 0)) :=
  (connection_cycle demoPollT demoStartSend demoPollComplete demoHandle demoPollH 4
      0 1 0 0 0 100 (0, none) (0, none) none).1 rfl

/-- C10: for every transport, sink, handler and fuel, any `Connection::poll`
call that returns `Ok` returns `Ok(NotReady)` — never `Ready` — and a
completed write does not finish the connection but re-enters `Reading` with
the transport taken back out of the `SendOne`; a connection can therefore
only end in an error. -/
theorem connection_poll_never_ready {E Req Resp TS HP : Type}
    (pollT : TS → PollOutcome E Req TS)
    (startSend : TS → Resp → SinkOutcome E Resp TS)
    (pollComplete : TS → PollOutcome E Unit TS)
    (handle : Req → HP) (pollH : HP → PollOutcome E Resp HP) (fuel : Nat) :
    (∀ (c c' : Conn Resp TS HP) (r : PollResult Unit),
      connectionPoll pollT startSend pollComplete handle pollH fuel c = .ok r c' →
      r = .notReady) ∧
    (∀ (so : TS × Option Resp) (ts' : TS) (rem : Option Resp),
      sendOnePoll startSend pollComplete fuel so = .ok (.ready ()) (ts', rem) →
      connectionPoll pollT startSend pollComplete handle pollH fuel (.writing so) =
        .ok .notReady (.reading ts')) := by
  constructor
  · intro c c' r h
    cases c <;> simp only [connectionPoll] at h <;> try split at h
    all_goals simp_all
  · intro so ts' rem h
    simp [connectionPoll, h]

/-- C10 witness: a completed demo write re-enters `Reading` and the call
returns `NotReady`. -/
theorem connection_poll_never_ready_witness :
    connectionPoll demoPollT demoStartSend demoPollComplete demoHandle demoPollH 4
      (.writing (1, some 100)) = .ok .notReady (.reading 1) :=
  (connection_poll_never_ready demoPollT demoStartSend demoPollComplete demoHandle
      demoPollH 4).2 (1, some 100) 1 none rfl

/-- Helper: starting from any in-range `last_thread`, `m` queue calls pick
the workers `last, last+1, …` cyclically. -/
theorem queueRun_eq_range (n : Nat) (hn : 0 < n) :
    ∀ (m last : Nat), last < n →
      queueRun n last m = (List.range m).map (fun i => (last + i) % n) := by
  intro m
  induction m with
  | zero => intro last _; simp [queueRun]
  | succ m ih =>
    intro last hlast
    have hstep : queueRun n last (m + 1) = last :: queueRun n ((last + 1) % n) m := rfl
    rw [hstep, ih ((last + 1) % n) (Nat.mod_lt _ hn), List.range_succ_eq_map,
      List.map_cons, List.map_map]
    have hhead : (last + 0) % n = last := by
      rw [Nat.add_zero]; exact Nat.mod_eq_of_lt hlast
    rw [hhead]
    have hf : (fun i => ((last + 1) % n + i) % n) =
        ((fun i => (last + i) % n) ∘ Nat.succ) := by
      funext i
      simp only [Function.comp_apply, Nat.succ_eq_add_one]
      rw [Nat.mod_add_mod]
      congr 1
      omega
    rw [hf]

/-- Helper: among the first `m` naturals, exactly
`m / n` plus one more when `w < m % n` are congruent to `w` modulo `n`. -/
theorem count_range_mod (n w : Nat) (hn : 0 < n) (hw : w < n) :
    ∀ m, ((List.range m).map (· % n)).count w =
      m / n + if w < m % n then 1 else 0 := by
  intro m
  induction m with
  | zero => simp
  | succ m ih =>
    rw [List.range_succ, List.map_append, List.count_append]
    have hsing : List.count w [m % n] = if w = m % n then 1 else 0 := by
      by_cases h : w = m % n <;> simp [h, List.count_cons]
    rw [ih, List.map_singleton, hsing]
    have hd := Nat.div_add_mod m n
    have hr : m % n < n := Nat.mod_lt _ hn
    by_cases hc : m % n + 1 = n
    · have h1 : m + 1 = n * (m / n + 1) := by rw [Nat.mul_succ]; omega
      have hdiv : (m + 1) / n = m / n + 1 := by
        rw [h1]; exact Nat.mul_div_cancel_left _ hn
      have hmod : (m + 1) % n = 0 := by rw [h1]; exact Nat.mul_mod_right _ _
      rw [hdiv, hmod]
      split_ifs <;> omega
    · have h1 : m + 1 = n * (m / n) + (m % n + 1) := by omega
      have hdiv : (m + 1) / n = m / n := by
        rw [h1, Nat.mul_add_div hn,
          Nat.div_eq_of_lt (show m % n + 1 < n by omega), Nat.add_zero]
      have hmod : (m + 1) % n = m % n + 1 := by
        rw [h1, Nat.mul_add_mod, Nat.mod_eq_of_lt (show m % n + 1 < n by omega)]
      rw [hdiv, hmod]
      split_ifs <;> omega

/-- Helper: when `n` does not divide `m`, the ceiling `(m + n - 1) / n` is
one more than the floor. -/
theorem ceil_div_of_not_dvd (n m : Nat) (hn : 0 < n) (h : m % n ≠ 0) :
    (m + n - 1) / n = m / n + 1 := by
  have hd := Nat.div_add_mod m n
  have hr : m % n < n := Nat.mod_lt _ hn
  have h1 : m + n - 1 = n * (m / n + 1) + (m % n - 1) := by
    rw [Nat.mul_succ]; omega
  rw [h1, Nat.mul_add_div hn,
    Nat.div_eq_of_lt (show m % n - 1 < n by omega), Nat.add_zero]

/-- C9: round-robin dispatch.  Starting from the pool's creation
(`last_thread = 0`), the `i`-th queued stream goes to worker `i % n`
(deterministically, since `queueRun` is a function), and after `m` streams
each worker `w < n` has received either `⌊m / n⌋` or `⌈m / n⌉` of them. -/
theorem threadPool_round_robin (n m : Nat) (hn : 0 < n) :
    (∀ i, i < m → (queueRun n 0 m)[i]? = some (i % n)) ∧
    (∀ w, w < n → ((queueRun n 0 m).count w = m / n ∨
                   (queueRun n 0 m).count w = (m + n - 1) / n)) := by
  have hq : queueRun n 0 m = (List.range m).map (· % n) := by
    rw [queueRun_eq_range n hn m 0 hn]
    simp
  constructor
  · intro i hi
    rw [hq, List.getElem?_map, List.getElem?_range hi]
    rfl
  · intro w hw
    rw [hq, count_range_mod n w hn hw m]
    by_cases h0 : m % n = 0
    · left; simp [h0]
    · by_cases h1 : w < m % n
      · right
        rw [ceil_div_of_not_dvd n m hn h0]
        simp [h1]
      · left; simp [h1]

/-- C9 witness: with 3 workers and 7 streams, stream 4 goes to worker
`4 % 3` and worker 0 receives `⌈7/3⌉` of them. -/
theorem threadPool_round_robin_witness :
    (queueRun 3 0 7)[4]? = some (4 % 3) ∧
    ((queueRun 3 0 7).count 0 = 7 / 3 ∨
     (queueRun 3 0 7).count 0 = (7 + 3 - 1) / 3) :=
  ⟨(threadPool_round_robin 3 7 (by decide)).1 4 (by decide),
   (threadPool_round_robin 3 7 (by decide)).2 0 (by decide)⟩

/-- C3: join completeness.  For any two pollables that yield `NotReady` on
every poll before completing (state traces `sL`, `sR`) and first yield
`Ready` on their `k1`-th and `k2`-th poll respectively, the join starting
from `Niether` yields `NotReady` on each of the first `max k1 k2 - 1` polls
and `Ready` with the pair of both values on poll number `max k1 k2`. -/
theorem join_completeness {E A B SL SR : Type}
    (pollL : SL → PollOutcome E A SL) (pollR : SR → PollOutcome E B SR)
    (sL : Nat → SL) (sR : Nat → SR) (k1 k2 : Nat) (vL : A) (vR : B)
    (hk1 : 0 < k1) (hk2 : 0 < k2)
    (hL : ∀ i, i + 1 < k1 → pollL (sL i) = .ok .notReady (sL (i + 1)))
    (hLr : pollL (sL (k1 - 1)) = .ok (.ready vL) (sL k1))
    (hR : ∀ i, i + 1 < k2 → pollR (sR i) = .ok .notReady (sR (i + 1)))
    (hRr : pollR (sR (k2 - 1)) = .ok (.ready vR) (sR k2)) :
    joinTrace sL sR k1 k2 vL vR 0 = (sL 0, sR 0, .niether) ∧
    (∀ i, i + 1 < max k1 k2 →
      joinPoll pollL pollR (joinTrace sL sR k1 k2 vL vR i) =
        .ok .notReady (joinTrace sL sR k1 k2 vL vR (i + 1))) ∧
    joinPoll pollL pollR (joinTrace sL sR k1 k2 vL vR (max k1 k2 - 1)) =
      .ok (.ready (vL, vR)) (sL k1, sR k2, .done) := by
  refine ⟨?_, ?_, ?_⟩
  · simp [joinTrace, hk1, hk2]
  · intro i hi
    by_cases h1 : i < k1 <;> by_cases h2 : i < k2
    · by_cases g1 : i + 1 < k1 <;> by_cases g2 : i + 1 < k2
      · simp [joinTrace, joinPoll, hL i g1, hR i g2,
          show min i k1 = i by omega, show min i k2 = i by omega,
          show min (i + 1) k1 = i + 1 by omega,
          show min (i + 1) k2 = i + 1 by omega, h1, h2, g1, g2]
      · have hik : k2 - 1 = i := by omega
        rw [hik] at hRr
        simp [joinTrace, joinPoll, hL i g1, hRr,
          show min i k1 = i by omega, show min i k2 = i by omega,
          show min (i + 1) k1 = i + 1 by omega,
          show min (i + 1) k2 = k2 by omega,
          show k2 = i + 1 by omega, h1, h2, g1, g2]
      · have hik : k1 - 1 = i := by omega
        rw [hik] at hLr
        simp [joinTrace, joinPoll, hLr, hR i g2,
          show min i k1 = i by omega, show min i k2 = i by omega,
          show min (i + 1) k1 = k1 by omega,
          show min (i + 1) k2 = i + 1 by omega,
          show k1 = i + 1 by omega, h1, h2, g1, g2]
      · omega
    · have g1 : i + 1 < k1 := by omega
      simp [joinTrace, joinPoll, hL i g1,
        show min i k1 = i by omega, show min i k2 = k2 by omega,
        show min (i + 1) k1 = i + 1 by omega,
        show min (i + 1) k2 = k2 by omega, h1, h2,
        show ¬(i + 1 < k2) by omega, g1]
    · have g2 : i + 1 < k2 := by omega
      simp [joinTrace, joinPoll, hR i g2,
        show min i k1 = k1 by omega, show min i k2 = i by omega,
        show min (i + 1) k1 = k1 by omega,
        show min (i + 1) k2 = i + 1 by omega, h1, h2,
        show ¬(i + 1 < k1) by omega, g2]
    · omega
  · rcases Nat.lt_trichotomy k1 k2 with hlt | heq | hgt
    · simp [joinTrace, joinPoll, hRr,
        show max k1 k2 = k2 by omega,
        show min (k2 - 1) k1 = k1 by omega,
        show min (k2 - 1) k2 = k2 - 1 by omega,
        show ¬(k2 - 1 < k1) by omega,
        show k2 - 1 < k2 by omega]
    · subst heq
      simp [joinTrace, joinPoll, hLr, hRr,
        show max k1 k1 = k1 by omega,
        show min (k1 - 1) k1 = k1 - 1 by omega,
        show k1 - 1 < k1 by omega]
    · simp [joinTrace, joinPoll, hLr,
        show max k1 k2 = k1 by omega,
        show min (k1 - 1) k1 = k1 - 1 by omega,
        show min (k1 - 1) k2 = k2 by omega,
        show ¬(k1 - 1 < k2) by omega,
        show k1 - 1 < k1 by omega]

/-- C3 witness: `YieldAfter(0).join(YieldAfter(4))` (so `k1 = 1`, `k2 = 5`)
yields `NotReady` on polls 1-4 and `Ready((42, 42))` on poll 5. -/
theorem join_completeness_witness :
    (joinPoll yieldAfterPoll yieldAfterPoll
        (joinTrace (fun _ => 0) (fun i => 4 - i) 1 5 42 42 0) =
      .ok .notReady (joinTrace (fun _ => 0) (fun i => 4 - i) 1 5 42 42 1)) ∧
    (joinPoll yieldAfterPoll yieldAfterPoll
        (joinTrace (fun _ => 0) (fun i => 4 - i) 1 5 42 42 1) =
      .ok .notReady (joinTrace (fun _ => 0) (fun i => 4 - i) 1 5 42 42 2)) ∧
    (joinPoll yieldAfterPoll yieldAfterPoll
        (joinTrace (fun _ => 0) (fun i => 4 - i) 1 5 42 42 2) =
      .ok .notReady (joinTrace (fun _ => 0) (fun i => 4 - i) 1 5 42 42 3)) ∧
    (joinPoll yieldAfterPoll yieldAfterPoll
        (joinTrace (fun _ => 0) (fun i => 4 - i) 1 5 42 42 3) =
      .ok .notReady (joinTrace (fun _ => 0) (fun i => 4 - i) 1 5 42 42 4)) ∧
    (joinPoll yieldAfterPoll yieldAfterPoll
        (joinTrace (fun _ => 0) (fun i => 4 - i) 1 5 42 42 (max 1 5 - 1)) =
      .ok (.ready (42, 42)) (0, 0, .done)) := by
  have h := join_completeness yieldAfterPoll yieldAfterPoll
      (fun _ => 0) (fun i => 4 - i) 1 5 42 42 (by decide) (by decide)
      (fun i hi => absurd hi (by omega)) (by decide)
      (fun i hi => by
        match i, hi with
        | 0, _ => rfl
        | 1, _ => rfl
        | 2, _ => rfl
        | 3, _ => rfl
        | n + 4, hi => exact absurd hi (by omega))
      (by decide)
  exact ⟨h.2.1 0 (by decide), h.2.1 1 (by decide), h.2.1 2 (by decide),
    h.2.1 3 (by decide), h.2.2⟩
